import Mathlib

/-!
Verification of the streaming status/response protocol handler of the
cosmos-multi-agent frontend.

The definitions below are a shallow embedding of the relevant JavaScript:
`fetchStreamWithErrorHandling` in `src/frontend_app/src/utils/apiClient.js`
(line splitting, envelope classification, finalization, terminal dispatch)
and the chunk / completion / error handlers inside `ChatProvider.sendMessage`
in `src/frontend_app/src/contexts/TopicContext.js`, together with the
submission controls of the `MainChat` component.

JavaScript strings are modelled as Lean `String` (with `List Char` for the
incremental line splitting), JSON values by the inductive `Json`, and the
built-in `JSON.parse` by an executable recursive-descent reader `jsonParse`
over the fragment of JSON the protocol uses (integer numerals; object fields
kept in source order).  Fallible steps return `Option`; the `try/catch`
around each line of the stream is modelled by total functions whose fallback
branch mirrors the catch block.
-/

/-- JSON values (the image of `JSON.parse`).  Numbers are modelled by the
integer fragment, which covers every numeral the protocol exchanges. -/
inductive Json where
  | null : Json
  | bool : Bool → Json
  | num : Int → Json
  | str : String → Json
  | arr : List Json → Json
  | obj : List (String × Json) → Json

/-- Field lookup on an object, `none` elsewhere: models JavaScript property
access returning `undefined` for a missing key or a non-object receiver
(property access on `null`/`undefined` throws and is modelled at the call
sites that can reach it). -/
def lookupField : List (String × Json) → String → Option Json
  | [], _ => none
  | (k, v) :: rest, key => if k == key then some v else lookupField rest key

/-- Property access `value.key`. -/
def Json.get : Json → String → Option Json
  | .obj fields, key => lookupField fields key
  | _, _ => none

/-- JavaScript truthiness of a value. -/
def jsTruthy : Json → Bool
  | .null => false
  | .bool b => b
  | .num n => !(n == 0)
  | .str s => !(s == "")
  | .arr _ => true
  | .obj _ => true

/-- Truthiness of a possibly-`undefined` value (`none` is `undefined`). -/
def optTruthy : Option Json → Bool
  | none => false
  | some v => jsTruthy v

/-- `a || b` on a possibly-undefined left operand, as used for defaults. -/
def jsOr (o : Option Json) (d : Json) : Json :=
  match o with
  | none => d
  | some v => if jsTruthy v then v else d

/-- `a || b` for strings (empty string is falsy). -/
def jsOrStr (s d : String) : String :=
  if s == "" then d else s

/-- Strict equality `value === "literal"`: true only for that very string. -/
def jsEqStr (o : Option Json) (s : String) : Bool :=
  match o with
  | some (Json.str t) => t == s
  | _ => false

mutual

/-- String coercion of a value in a template literal, `String(v)`. -/
def tmplCoe : Json → String
  | .null => "null"
  | .bool b => if b then "true" else "false"
  | .num n => toString n
  | .str s => s
  | .arr xs => joinArr xs
  | .obj _ => "[object Object]"

/-- `Array.prototype.join(",")` over the elements of an array. -/
def joinArr : List Json → String
  | [] => ""
  | [x] => joinCoe x
  | x :: xs => joinCoe x ++ "," ++ joinArr xs

/-- Element coercion inside `Array.prototype.join`: `null` becomes empty. -/
def joinCoe : Json → String
  | .null => ""
  | .bool b => if b then "true" else "false"
  | .num n => toString n
  | .str s => s
  | .arr xs => joinArr xs
  | .obj _ => "[object Object]"

end

/-- Template-literal coercion of a possibly-undefined value. -/
def tmplCoeOpt : Option Json → String
  | none => "undefined"
  | some v => tmplCoe v

/-- `Array.prototype.join` coercion of a possibly-undefined element. -/
def joinCoeOpt : Option Json → String
  | none => ""
  | some v => joinCoe v

/-! ## Line splitting (`newData.split('\n').filter(line => line.trim())`) -/

/-- Extend the first segment of a split with a leading character. -/
def consHead (c : Char) : List (List Char) → List (List Char)
  | [] => [[c]]
  | l :: ls => (c :: l) :: ls

/-- `text.split('\n')` on the character list of a JavaScript string. -/
def splitNl : List Char → List (List Char)
  | [] => [[]]
  | c :: cs => if c = '\n' then [] :: splitNl cs else consHead c (splitNl cs)

/-- A segment that `line.trim()` sends to the empty (falsy) string. -/
def jsBlank (l : List Char) : Bool :=
  l.all (fun c => c.isWhitespace)

/-- The complete non-blank lines one delivery contributes:
`newData.split('\n').filter(line => line.trim())`. -/
def emitLinesL (s : List Char) : List (List Char) :=
  (splitNl s).filter (fun l => !(jsBlank l))

/-! ## `JSON.parse`, on the fragment of JSON the protocol uses -/

/-- JSON whitespace. -/
def isJsonWs (c : Char) : Bool :=
  c == ' ' || c == '\t' || c == '\n' || c == (Char.ofNat 13)

/-- Drop leading JSON whitespace. -/
def skipWs : List Char → List Char
  | [] => []
  | c :: cs => if isJsonWs c then skipWs cs else c :: cs

/-- Value of a hexadecimal digit. -/
def hexVal (c : Char) : Option Nat :=
  if c.isDigit then some (c.toNat - 48)
  else if 'a' ≤ c && c ≤ 'f' then some (c.toNat - 87)
  else if 'A' ≤ c && c ≤ 'F' then some (c.toNat - 55)
  else none

/-- Translation of a single-character string escape. -/
def escChar (e : Char) : Option Char :=
  if e == '"' then some '"'
  else if e == '\\' then some '\\'
  else if e == '/' then some '/'
  else if e == 'b' then some (Char.ofNat 8)
  else if e == 'f' then some (Char.ofNat 12)
  else if e == 'n' then some '\n'
  else if e == 'r' then some (Char.ofNat 13)
  else if e == 't' then some '\t'
  else none

/-- Body of a JSON string after the opening quote: returns the decoded
characters and the input remaining after the closing quote. -/
def parseStringBody : Nat → List Char → Option (List Char × List Char)
  | 0, _ => none
  | _ + 1, [] => none
  | fuel + 1, c :: rest =>
    if c == '"' then some ([], rest)
    else if c == '\\' then
      match rest with
      | [] => none
      | e :: rest2 =>
        if e == 'u' then
          match rest2 with
          | h1 :: h2 :: h3 :: h4 :: rest3 =>
            match hexVal h1, hexVal h2, hexVal h3, hexVal h4 with
            | some a, some b, some c3, some d =>
              match parseStringBody fuel rest3 with
              | some (cs, r) =>
                some (Char.ofNat ((((a * 16 + b) * 16 + c3) * 16 + d)) :: cs, r)
              | none => none
            | _, _, _, _ => none
          | _ => none
        else
          match escChar e with
          | some ec =>
            match parseStringBody fuel rest2 with
            | some (cs, r) => some (ec :: cs, r)
            | none => none
          | none => none
    else if c.toNat < 32 then none
    else
      match parseStringBody fuel rest with
      | some (cs, r) => some (c :: cs, r)
      | none => none

/-- Consume a run of decimal digits, accumulating their value. -/
def takeDigits : List Char → Nat → Nat × List Char
  | [], acc => (acc, [])
  | c :: rest, acc =>
    if c.isDigit then takeDigits rest (acc * 10 + (c.toNat - 48))
    else (acc, c :: rest)

mutual

/-- One JSON value and the remaining input. -/
def parseValue : Nat → List Char → Option (Json × List Char)
  | 0, _ => none
  | fuel + 1, s0 =>
    match skipWs s0 with
    | [] => none
    | c :: rest =>
      if c == '"' then
        match parseStringBody fuel rest with
        | some (cs, r) => some (Json.str (String.mk cs), r)
        | none => none
      else if c == '[' then
        match skipWs rest with
        | d :: r2 =>
          if d == ']' then some (Json.arr [], r2)
          else
            match parseArrayRest fuel (d :: r2) with
            | some (vs, r3) => some (Json.arr vs, r3)
            | none => none
        | [] => none
      else if c == Char.ofNat 123 then
        match skipWs rest with
        | d :: r2 =>
          if d == Char.ofNat 125 then some (Json.obj [], r2)
          else
            match parseObjRest fuel (d :: r2) with
            | some (fs, r3) => some (Json.obj fs, r3)
            | none => none
        | [] => none
      else if c == '-' then
        match rest with
        | d :: _ =>
          if d.isDigit then
            match takeDigits rest 0 with
            | (n, r) => some (Json.num (-(n : Int)), r)
          else none
        | [] => none
      else if c.isDigit then
        match takeDigits (c :: rest) 0 with
        | (n, r) => some (Json.num (n : Int), r)
      else if c == 'n' then
        match rest with
        | 'u' :: 'l' :: 'l' :: r => some (Json.null, r)
        | _ => none
      else if c == 't' then
        match rest with
        | 'r' :: 'u' :: 'e' :: r => some (Json.bool true, r)
        | _ => none
      else if c == 'f' then
        match rest with
        | 'a' :: 'l' :: 's' :: 'e' :: r => some (Json.bool false, r)
        | _ => none
      else none

/-- Elements of a non-empty array, up to and including the closing bracket. -/
def parseArrayRest : Nat → List Char → Option (List Json × List Char)
  | 0, _ => none
  | fuel + 1, s =>
    match parseValue fuel s with
    | some (v, r) =>
      match skipWs r with
      | d :: r2 =>
        if d == ',' then
          match parseArrayRest fuel r2 with
          | some (vs, r3) => some (v :: vs, r3)
          | none => none
        else if d == ']' then some ([v], r2)
        else none
      | [] => none
    | none => none

/-- Members of a non-empty object, up to and including the closing brace. -/
def parseObjRest : Nat → List Char → Option (List (String × Json) × List Char)
  | 0, _ => none
  | fuel + 1, s =>
    match skipWs s with
    | c :: rest =>
      if c == '"' then
        match parseStringBody fuel rest with
        | some (key, r) =>
          match skipWs r with
          | ':' :: r2 =>
            match parseValue fuel r2 with
            | some (v, r3) =>
              match skipWs r3 with
              | d :: r4 =>
                if d == ',' then
                  match parseObjRest fuel r4 with
                  | some (fs, r5) => some ((String.mk key, v) :: fs, r5)
                  | none => none
                else if d == Char.ofNat 125 then some ([(String.mk key, v)], r4)
                else none
              | [] => none
            | none => none
          | _ => none
        | none => none
      else none
    | [] => none

end

/-- `JSON.parse(line)`: one value, nothing but whitespace after it. -/
def jsonParse (line : List Char) : Option Json :=
  match parseValue (line.length + 8) line with
  | some (v, r) => if (skipWs r).isEmpty then some v else none
  | none => none

/-! ## UI-facing data model (`ChatProvider` in `TopicContext.js`) -/

/-- One accumulated status update (`{agent, message}` pushed by the chunk
handler); either field may be `undefined` (`none`) or `null`. -/
structure StatusUpdate where
  agent : Option Json
  message : Option Json

/-- One conversation turn in the `messages` state.  Timestamps are omitted:
no observable behaviour depends on them. -/
structure Message where
  id : String
  sender : String
  content : Json
  isTemp : Bool := false
  isStatusHistory : Bool := false
  isError : Bool := false
  statusUpdates : List StatusUpdate := []

/-- Formatting of one status update inside the placeholder transcript:
the template literal when `update.agent` is truthy, otherwise the raw
`update.message` (coerced later by `Array.prototype.join`). -/
def fmtStatus (u : StatusUpdate) : String :=
  if optTruthy u.agent then
    "**" ++ tmplCoeOpt u.agent ++ "**: " ++ tmplCoeOpt u.message
  else joinCoeOpt u.message

/-- The in-flight placeholder turn rebuilt after each status update. -/
def mkTempMessage (tempId : String) (sus : List StatusUpdate) : Message :=
  { id := tempId
    sender := "system"
    content := Json.str (String.intercalate "\n\n" (sus.map fmtStatus) ++
      "\n\n*Processing...*")
    isTemp := true
    statusUpdates := sus }

/-- The `setMessages` updater used for every status chunk: replace the
existing message with the request-scoped temporary id, else append. -/
def upsertTemp (prev : List Message) (tempId : String) (t : Message) :
    List Message :=
  if prev.any (fun m => m.id == tempId) then
    prev.map (fun m => if m.id == tempId then t else m)
  else prev ++ [t]

/-- Replace the first occurrence of `pat` in `s` (JavaScript
`String.prototype.replace` with a plain-string pattern). -/
def replaceFirst (s pat rep : List Char) : List Char :=
  match s with
  | [] => []
  | c :: cs =>
    if pat.isPrefixOf (c :: cs) then rep ++ (c :: cs).drop pat.length
    else c :: replaceFirst cs pat rep

/-- `m.content.replace('*Processing...*', '')`; the placeholder content is
always a string, other shapes pass through untouched. -/
def contentReplace (j : Json) : Json :=
  match j with
  | .str s => .str (String.mk (replaceFirst s.data ("*Processing...*").data []))
  | v => v

/-- Conversion of the placeholder turn into the permanent status-history
record performed by the completion handler. -/
def historyConvert (m : Message) (cid : String) : Message :=
  { m with
    id := "status-" ++ cid
    isTemp := false
    isStatusHistory := true
    content := contentReplace m.content }

/-! ## Streaming pipeline state -/

/-- State owned by `fetchStreamWithErrorHandling`: the captured
`final_answer` of the last `response` envelope (`none` until assigned, or
when assigned `undefined`), the accumulated status messages, and the whole
response text received so far. -/
structure StreamState where
  finalResponse : Option Json := none
  apiStatusUpdates : List (Option Json) := []
  receivedData : List Char := []

/-- State owned by the chunk handler in `ChatProvider.sendMessage`. -/
structure ChatState where
  ctxStatusUpdates : List StatusUpdate := []
  messages : List Message := []

/-- Combined state of one in-flight request. -/
structure SysState where
  stream : StreamState := {}
  chat : ChatState := {}

/-- Fresh request state. -/
def initSys : SysState := {}

/-- Chunk handler branch for a status-shaped chunk (`chunkData.isStatus`
truthy): push `{agent, message}` and rebuild the placeholder turn. -/
def chatStatusUpdate (tempId : String) (c : ChatState)
    (agent message : Option Json) : ChatState :=
  let sus := c.ctxStatusUpdates ++ [{ agent := agent, message := message }]
  { ctxStatusUpdates := sus
    messages := upsertTemp c.messages tempId (mkTempMessage tempId sus) }

/-- Chunk handler branch for a plain-text chunk (`isJSON` false): push
`{agent: null, message: line}` and rebuild the placeholder turn. -/
def rawChatUpdate (tempId : String) (c : ChatState) (line : List Char) :
    ChatState :=
  chatStatusUpdate tempId c (some Json.null) (some (Json.str (String.mk line)))

/-- The catch path of the per-line classifier: record the raw line as a
status message and deliver it to the chunk handler as plain text. -/
def rawFallback (tempId : String) (s : SysState) (line : List Char) :
    SysState :=
  { stream := { s.stream with
      apiStatusUpdates := s.stream.apiStatusUpdates ++
        [some (Json.str (String.mk line))] }
    chat := rawChatUpdate tempId s.chat line }

/-- The `"status"` branch: push `parsed.message` to the transcript and send
`{isStatus: true, message, agent}` to the chunk handler. -/
def statusDeliver (tempId : String) (s : SysState) (parsed : Json) :
    SysState :=
  { stream := { s.stream with
      apiStatusUpdates := s.stream.apiStatusUpdates ++
        [parsed.get ("message")] }
    chat := chatStatusUpdate tempId s.chat (parsed.get ("agent"))
      (parsed.get ("message")) }

/-- A JSON chunk whose `isStatus` field is truthy is rendered as a status
update by the chunk handler without touching the wire-level transcript. -/
def statusPassthrough (tempId : String) (s : SysState) (v : Json) :
    SysState :=
  { s with
    chat := chatStatusUpdate tempId s.chat (v.get ("agent"))
      (v.get ("message")) }

/-- `finalResponse = parsed.final_answer`. -/
def setFinal (s : SysState) (v : Option Json) : SysState :=
  { s with stream := { s.stream with finalResponse := v } }

/-- The non-throwing part of the chunk handler on a JSON chunk: render it
as a status update when its `isStatus` field is truthy, otherwise leave the
state untouched (the handler just returns). -/
def passOrKeep (tempId : String) (s1 : SysState) (v : Json) : SysState :=
  if optTruthy (v.get ("isStatus")) then statusPassthrough tempId s1 v
  else s1

/-- Delivery of the captured `final_answer` to the chunk handler,
`onChunk(finalResponse, true)`.  `chunkData.isStatus` throws on a `null` or
`undefined` chunk; the exception is caught by the per-line handler, which
then records the raw line as plain text. -/
def responseDeliver (tempId : String) (s1 : SysState) (line : List Char) :
    Option Json → SysState
  | none => rawFallback tempId s1 line
  | some Json.null => rawFallback tempId s1 line
  | some fa => passOrKeep tempId s1 fa

/-- Classification of one successfully parsed line.  Property access on
`null` throws and is caught by the surrounding handler, hence the raw
fallback for a `null` line. -/
def parsedStep (tempId : String) (s : SysState) (line : List Char)
    (parsed : Json) : SysState :=
  match parsed with
  | Json.null => rawFallback tempId s line
  | _ =>
    if jsEqStr (parsed.get ("type")) ("status") then
      statusDeliver tempId s parsed
    else if jsEqStr (parsed.get ("type")) ("response") then
      responseDeliver tempId (setFinal s (parsed.get ("final_answer"))) line
        (parsed.get ("final_answer"))
    else
      if optTruthy (parsed.get ("isStatus")) then
        statusPassthrough tempId s parsed
      else s

/-- Processing of one complete non-blank line of the stream. -/
def lineStep (tempId : String) (s : SysState) (line : List Char) : SysState :=
  match jsonParse line with
  | none => rawFallback tempId s line
  | some parsed => parsedStep tempId s line parsed

/-- One `onprogress` delivery: record the new text and process its complete
non-blank lines in order. -/
def deliverChunk (tempId : String) (s : SysState) (chunk : List Char) :
    SysState :=
  (emitLinesL chunk).foldl (lineStep tempId)
    { s with stream := { s.stream with
        receivedData := s.stream.receivedData ++ chunk } }

/-- Run the stream over a list of incremental deliveries. -/
def runFrom (tempId : String) (s : SysState) (chunks : List (List Char)) :
    SysState :=
  chunks.foldl (deliverChunk tempId) s

/-! ## Finalization and terminal dispatch -/

/-- `statusUpdates.join('\n')`. -/
def joinNl (sus : List (Option Json)) : String :=
  String.intercalate "\n" (sus.map joinCoeOpt)

/-- The fallback of the 2xx `onload` handler when no truthy `final_answer`
was captured: parse the last non-blank line of the whole body, else
synthesize a result from the status transcript. -/
def finalizeTail (st : StreamState) : Json :=
  match (emitLinesL st.receivedData).getLast? with
  | some lastLine =>
    match jsonParse lastLine with
    | some parsed => parsed
    | none => Json.obj [(("content" : String),
        Json.str (jsOrStr (joinNl st.apiStatusUpdates) ("Request completed")))]
  | none => Json.obj [(("content" : String),
      Json.str ("Received response but couldn\x27t parse final result"))]

/-- The argument the 2xx `onload` handler passes to `onComplete`. -/
def finalize (st : StreamState) : Json :=
  match st.finalResponse with
  | some fr => if jsTruthy fr then fr else finalizeTail st
  | none => finalizeTail st

/-- Formalization of the spec sentence for the resolution order as
literally stated: any captured `response` envelope wins with its
`final_answer`, with no truthiness requirement. -/
def finalizeSpecOrder (st : StreamState) : Json :=
  match st.finalResponse with
  | some fr => fr
  | none => finalizeTail st

/-- Whether a captured `final_answer` passes the `if (finalResponse)` test. -/
def capturedTruthy (st : StreamState) : Bool :=
  optTruthy st.finalResponse

/-- `xhr.status >= 200 && xhr.status < 300`. -/
def isSuccessStatus (status : Nat) : Bool :=
  200 ≤ status && status < 300

/-- How the transport ends: `onload` with an HTTP status, or `onerror`. -/
inductive TerminalEvent where
  | loaded : Nat → TerminalEvent
  | networkError : TerminalEvent

/-- Terminal dispatch of the transport: `some result` means `onComplete`
is invoked with it, `none` means `onError` is invoked. -/
def terminalOutcome (e : TerminalEvent) (st : StreamState) : Option Json :=
  match e with
  | .loaded status => if isSuccessStatus status then some (finalize st) else none
  | .networkError => none

/-- The fixed apology literal of the error turn. -/
def apologyText : String :=
  "I\x27m sorry, there was an error processing your request. Please try again."

/-- The error turn appended by the `onError` handler. -/
def errorMessage (cid : String) : Message :=
  { id := "system-" ++ cid
    sender := "system"
    content := Json.str apologyText
    isError := true }

/-- The `setMessages` updater of the `onError` handler: drop the placeholder
and append the error turn. -/
def errorUpdate (prev : List Message) (tempId cid : String) : List Message :=
  prev.filter (fun m => !(m.id == tempId)) ++ [errorMessage cid]

/-- The final turn appended by the completion handler. -/
def finalMessage (cid : String) (finalData : Json) : Message :=
  { id := "system-" ++ cid
    sender := "system"
    content := jsOr (finalData.get ("content"))
      (Json.str ("I\x27ve processed your request.")) }

/-- The `setMessages` updater of the completion handler: convert the
placeholder into a status-history record (or drop it when such a record
already exists) and append the final turn. -/
def completeUpdate (prev : List Message) (tempId cid : String)
    (finalData : Json) : List Message :=
  if prev.any (fun m => m.id == ("status-" ++ cid) && m.isStatusHistory) then
    prev.filter (fun m => !(m.id == tempId)) ++ [finalMessage cid finalData]
  else
    prev.map (fun m => if m.id == tempId then historyConvert m cid else m) ++
      [finalMessage cid finalData]

/-- Formalization of the spec sentence for finalization retention as
literally stated: the placeholder becomes a retained history record only
when status-detail retention is enabled, and is discarded otherwise; in
both cases the separate final turn is appended. -/
def completeUpdateSpecRetention (retention : Bool) (prev : List Message)
    (tempId cid : String) (finalData : Json) : List Message :=
  if retention then
    prev.map (fun m => if m.id == tempId then historyConvert m cid else m) ++
      [finalMessage cid finalData]
  else
    prev.filter (fun m => !(m.id == tempId)) ++ [finalMessage cid finalData]

/-- The request-scoped temporary id for a conversation. -/
def tempIdOf (cid : String) : String := "temp-" ++ cid

/-- Application of the terminal callback to the message list. -/
def terminalApply (e : TerminalEvent) (st : StreamState) (prev : List Message)
    (tempId cid : String) : List Message :=
  match terminalOutcome e st with
  | some finalData => completeUpdate prev tempId cid finalData
  | none => errorUpdate prev tempId cid

/-- Number of turns carrying the request-scoped temporary id. -/
def countTemp (tempId : String) (msgs : List Message) : Nat :=
  (msgs.filter (fun m => m.id == tempId)).length

/-! ## Submission controls (`MainChat` in `components/MainChat.js`) -/

/-- `disabled={!message.trim()}` on the send button: `message.trim()` is
falsy exactly when the draft is all whitespace, and the condition ignores
the outstanding-request flag `isTyping`. -/
def sendDisabled (message : String) (isTyping : Bool) : Bool :=
  jsBlank message.data

/-- `disabled={false}` on the input field. -/
def inputFieldDisabled (isTyping : Bool) : Bool :=
  false

/-- Guard inside `handleSend`: the submission fires whenever the draft is
non-blank. -/
def handleSendSubmits (message : String) : Bool :=
  !(jsBlank message.data)

/-- Delivery boundaries that all fall on line terminators: every chunk but
the last ends with a newline. -/
def aligned : List (List Char) → Bool
  | [] => true
  | [_] => true
  | c :: rest => decide (c.getLast? = some '\n') && aligned rest



/-! ## Helper lemmas -/

theorem splitNl_ne_nil (s : List Char) : splitNl s ≠ [] := by
  induction s with
  | nil => simp [splitNl]
  | cons c cs ih =>
    by_cases hc : c = '\n'
    · simp [splitNl, hc]
    · simp only [splitNl, if_neg hc]
      cases h : splitNl cs with
      | nil => exact absurd h ih
      | cons l ls => simp [consHead]

theorem consHead_append (c : Char) (A B : List (List Char)) (h : A ≠ []) :
    consHead c (A ++ B) = consHead c A ++ B := by
  cases A with
  | nil => exact absurd rfl h
  | cons a as => simp [consHead]

theorem splitNl_append (xs ys : List Char) :
    splitNl (xs ++ '\n' :: ys) = splitNl xs ++ splitNl ys := by
  induction xs with
  | nil => simp [splitNl]
  | cons c cs ih =>
    by_cases hc : c = '\n'
    · subst hc
      simp [splitNl, ih]
    · have hstep : splitNl ((c :: cs) ++ '\n' :: ys) =
          consHead c (splitNl (cs ++ '\n' :: ys)) := by
        simp [splitNl, if_neg hc]
      rw [hstep, ih, consHead_append c _ _ (splitNl_ne_nil cs)]
      simp [splitNl, if_neg hc]

theorem emitLinesL_append_nl (xs ys : List Char) :
    emitLinesL (xs ++ '\n' :: ys) = emitLinesL xs ++ emitLinesL ys := by
  unfold emitLinesL
  rw [splitNl_append, List.filter_append]

theorem eq_concat_of_getLast? {α : Type} (l : List α) (a : α)
    (h : l.getLast? = some a) : ∃ t, l = t ++ [a] := by
  induction l with
  | nil => simp [List.getLast?] at h
  | cons x xs ih =>
    cases xs with
    | nil =>
      simp [List.getLast?] at h
      exact ⟨[], by simp [h]⟩
    | cons y ys =>
      rw [List.getLast?_cons_cons] at h
      obtain ⟨t, ht⟩ := ih h
      exact ⟨x :: t, by simp [ht]⟩

theorem emitLinesL_nil : emitLinesL [] = [] := by decide

theorem emitLinesL_append_aligned (c z : List Char)
    (h : c.getLast? = some '\n') :
    emitLinesL (c ++ z) = emitLinesL c ++ emitLinesL z := by
  obtain ⟨t, rfl⟩ := eq_concat_of_getLast? c '\n' h
  have h1 : (t ++ ['\n']) ++ z = t ++ '\n' :: z := by simp
  have h2 : t ++ ['\n'] = t ++ '\n' :: ([] : List Char) := rfl
  rw [h1, emitLinesL_append_nl, h2, emitLinesL_append_nl, emitLinesL_nil]
  simp

theorem countTemp_append (t : String) (l1 l2 : List Message) :
    countTemp t (l1 ++ l2) = countTemp t l1 + countTemp t l2 := by
  simp [countTemp, List.filter_append]

theorem countTemp_eq_zero_of_any_eq_false (t : String) (l : List Message)
    (h : l.any (fun m => m.id == t) = false) : countTemp t l = 0 := by
  induction l with
  | nil => rfl
  | cons m ms ih =>
    simp only [List.any_cons, Bool.or_eq_false_iff] at h
    simp [countTemp, List.filter_cons, h.1]
    simpa [countTemp] using ih h.2

theorem countTemp_map_upsert (t : String) (tm : Message) (hid : tm.id = t)
    (l : List Message) :
    countTemp t (l.map (fun m => if m.id == t then tm else m)) =
      countTemp t l := by
  induction l with
  | nil => rfl
  | cons m ms ih =>
    cases hm : (m.id == t) with
    | false =>
      simp only [List.map_cons, hm]
      simp [countTemp, List.filter_cons, hm]
      simpa [countTemp] using ih
    | true =>
      simp only [List.map_cons, hm]
      simp [countTemp, List.filter_cons, hm, hid]
      simpa [countTemp] using ih

theorem countTemp_upsertTemp (t : String) (tm : Message) (l : List Message)
    (hid : tm.id = t) (h : countTemp t l ≤ 1) :
    countTemp t (upsertTemp l t tm) ≤ 1 := by
  unfold upsertTemp
  cases ha : l.any (fun m => m.id == t) with
  | true =>
    simp only [ha, if_true]
    rw [countTemp_map_upsert t tm hid l]
    exact h
  | false =>
    simp only [ha, Bool.false_eq_true, if_false]
    rw [countTemp_append, countTemp_eq_zero_of_any_eq_false t l ha]
    simp [countTemp, List.filter_cons, hid]

theorem countTemp_chatStatusUpdate (t : String) (c : ChatState)
    (agent message : Option Json) (h : countTemp t c.messages ≤ 1) :
    countTemp t (chatStatusUpdate t c agent message).messages ≤ 1 :=
  countTemp_upsertTemp t _ _ rfl h

theorem countTemp_passOrKeep (t : String) (s1 : SysState) (v : Json)
    (h : countTemp t s1.chat.messages ≤ 1) :
    countTemp t (passOrKeep t s1 v).chat.messages ≤ 1 := by
  unfold passOrKeep
  split_ifs
  · exact countTemp_chatStatusUpdate t _ _ _ h
  · exact h

theorem countTemp_responseDeliver (t : String) (s1 : SysState)
    (line : List Char) (fa : Option Json)
    (h : countTemp t s1.chat.messages ≤ 1) :
    countTemp t (responseDeliver t s1 line fa).chat.messages ≤ 1 := by
  cases fa with
  | none => exact countTemp_chatStatusUpdate t _ _ _ h
  | some v =>
    cases v with
    | null => exact countTemp_chatStatusUpdate t _ _ _ h
    | bool b => exact countTemp_passOrKeep t s1 _ h
    | num n => exact countTemp_passOrKeep t s1 _ h
    | str st => exact countTemp_passOrKeep t s1 _ h
    | arr xs => exact countTemp_passOrKeep t s1 _ h
    | obj fs => exact countTemp_passOrKeep t s1 _ h

theorem countTemp_parsedStep (t : String) (s : SysState) (line : List Char)
    (parsed : Json) (h : countTemp t s.chat.messages ≤ 1) :
    countTemp t (parsedStep t s line parsed).chat.messages ≤ 1 := by
  cases parsed with
  | null => exact countTemp_chatStatusUpdate t _ _ _ h
  | bool b =>
    unfold parsedStep
    split_ifs
    · exact countTemp_chatStatusUpdate t _ _ _ h
    · exact countTemp_responseDeliver t _ _ _ h
    · exact countTemp_chatStatusUpdate t _ _ _ h
    · exact h
  | num n =>
    unfold parsedStep
    split_ifs
    · exact countTemp_chatStatusUpdate t _ _ _ h
    · exact countTemp_responseDeliver t _ _ _ h
    · exact countTemp_chatStatusUpdate t _ _ _ h
    · exact h
  | str st =>
    unfold parsedStep
    split_ifs
    · exact countTemp_chatStatusUpdate t _ _ _ h
    · exact countTemp_responseDeliver t _ _ _ h
    · exact countTemp_chatStatusUpdate t _ _ _ h
    · exact h
  | arr xs =>
    unfold parsedStep
    split_ifs
    · exact countTemp_chatStatusUpdate t _ _ _ h
    · exact countTemp_responseDeliver t _ _ _ h
    · exact countTemp_chatStatusUpdate t _ _ _ h
    · exact h
  | obj fs =>
    unfold parsedStep
    split_ifs
    · exact countTemp_chatStatusUpdate t _ _ _ h
    · exact countTemp_responseDeliver t _ _ _ h
    · exact countTemp_chatStatusUpdate t _ _ _ h
    · exact h

theorem countTemp_lineStep (t : String) (s : SysState) (line : List Char)
    (h : countTemp t s.chat.messages ≤ 1) :
    countTemp t (lineStep t s line).chat.messages ≤ 1 := by
  unfold lineStep
  cases jsonParse line with
  | none => exact countTemp_chatStatusUpdate t _ _ _ h
  | some parsed => exact countTemp_parsedStep t s line parsed h

theorem countTemp_foldl_lineStep (t : String) (lines : List (List Char))
    (s : SysState) (h : countTemp t s.chat.messages ≤ 1) :
    countTemp t (lines.foldl (lineStep t) s).chat.messages ≤ 1 := by
  induction lines generalizing s with
  | nil => exact h
  | cons l ls ih => exact ih _ (countTemp_lineStep t s l h)

theorem countTemp_deliverChunk (t : String) (s : SysState)
    (chunk : List Char) (h : countTemp t s.chat.messages ≤ 1) :
    countTemp t (deliverChunk t s chunk).chat.messages ≤ 1 :=
  countTemp_foldl_lineStep t _ _ h

theorem countTemp_runFrom (t : String) (s : SysState)
    (chunks : List (List Char)) (h : countTemp t s.chat.messages ≤ 1) :
    countTemp t (runFrom t s chunks).chat.messages ≤ 1 := by
  induction chunks generalizing s with
  | nil => exact h
  | cons c cs ih => exact ih _ (countTemp_deliverChunk t s c h)

theorem system_temp_ne (cid : String) :
    ((("system-" : String) ++ cid) == tempIdOf cid) = false := by
  apply beq_eq_false_iff_ne.mpr
  intro h
  have hl := congrArg String.length h
  rw [tempIdOf] at hl
  rw [String.length_append, String.length_append] at hl
  have h1 : ("system-" : String).length = 7 := rfl
  have h2 : ("temp-" : String).length = 5 := rfl
  rw [h1, h2] at hl
  omega

theorem countTemp_filter_not (t : String) (l : List Message) :
    countTemp t (l.filter (fun m => !(m.id == t))) = 0 := by
  induction l with
  | nil => rfl
  | cons m ms ih =>
    cases hm : (m.id == t) with
    | true => simpa [List.filter_cons, hm] using ih
    | false =>
      simp only [List.filter_cons, hm, Bool.not_false, if_true]
      simpa [countTemp, List.filter_cons, hm] using ih

/-! ## Claim theorems -/

/-- C2 counterexample: the claim that the Line Parser is split-invariant at
arbitrary byte positions is false.  Splitting the body `"ab\ncd"` as
`"ab\nc"` then `"d"` makes the parser emit `["ab","c","d"]`, while a single
delivery emits `["ab","cd"]`: the fragment `"c"` is consumed as a line
before its terminator arrives. -/
theorem lineParser_split_invariance_cx :
    [['a', 'b', '\n', 'c'], ['d']].flatMap emitLinesL ≠
      emitLinesL ([['a', 'b', '\n', 'c'], ['d']].flatten) := by
  decide

/-- C2 (amended): the Line Parser emits the same ordered sequence of
complete non-blank lines as a single delivery whenever every delivery
boundary falls on a line terminator, i.e. each chunk except the last ends
with a newline; a delivery that ends mid-line instead consumes the partial
fragment immediately. -/
theorem lineParser_split_invariant_aligned (chunks : List (List Char))
    (h : aligned chunks = true) :
    chunks.flatMap emitLinesL = emitLinesL chunks.flatten := by
  induction chunks with
  | nil => decide
  | cons c rest ih =>
    cases rest with
    | nil => simp [List.flatMap_cons, List.flatten_cons]
    | cons c2 rest2 =>
      have h2 : (decide (c.getLast? = some '\n') &&
          aligned (c2 :: rest2)) = true := h
      rw [Bool.and_eq_true] at h2
      have hd : c.getLast? = some '\n' := of_decide_eq_true h2.1
      rw [List.flatMap_cons, List.flatten_cons,
        emitLinesL_append_aligned c _ hd, ih h2.2]

/-- Witness for C2 (amended) at a concrete aligned split. -/
theorem lineParser_split_invariant_aligned_witness :
    [['a', '\n'], ['b']].flatMap emitLinesL =
      emitLinesL ([['a', '\n'], ['b']].flatten) :=
  lineParser_split_invariant_aligned [['a', '\n'], ['b']] (by decide)

/-- C3: over any run of stream deliveries, the message list never holds
more than one turn with the request-scoped temporary id: each status event
replaces the placeholder in place instead of appending a duplicate. -/
theorem placeholder_at_most_one (tempId : String) (s : SysState)
    (chunks : List (List Char)) (h : countTemp tempId s.chat.messages ≤ 1) :
    countTemp tempId (runFrom tempId s chunks).chat.messages ≤ 1 :=
  countTemp_runFrom tempId s chunks h

/-- Witness for C3: a concrete run with two status envelopes. -/
theorem placeholder_at_most_one_witness :
    countTemp ("temp-1") (runFrom ("temp-1") initSys
      [("\x7b\"type\":\"status\",\"message\":\"m1\"\x7d\n\x7b\"type\":\"status\",\"message\":\"m2\"\x7d").data]).chat.messages ≤ 1 :=
  placeholder_at_most_one ("temp-1") initSys
    [("\x7b\"type\":\"status\",\"message\":\"m1\"\x7d\n\x7b\"type\":\"status\",\"message\":\"m2\"\x7d").data]
    (by decide)

/-- C4: every terminal error (any non-2xx status, regardless of the stream
state accumulated from the body, or a network failure) removes the
placeholder turn and appends exactly one error turn carrying the fixed
apology literal. -/
theorem terminal_error_single_apology (e : TerminalEvent) (st : StreamState)
    (prev : List Message) (cid : String)
    (h : terminalOutcome e st = none) :
    terminalApply e st prev (tempIdOf cid) cid =
      prev.filter (fun m => !(m.id == tempIdOf cid)) ++ [errorMessage cid] ∧
    countTemp (tempIdOf cid)
      (terminalApply e st prev (tempIdOf cid) cid) = 0 ∧
    (errorMessage cid).content = Json.str apologyText ∧
    (errorMessage cid).isError = true := by
  have happ : terminalApply e st prev (tempIdOf cid) cid =
      prev.filter (fun m => !(m.id == tempIdOf cid)) ++ [errorMessage cid] := by
    unfold terminalApply
    rw [h]
    rfl
  refine ⟨happ, ?_, rfl, rfl⟩
  rw [happ, countTemp_append, countTemp_filter_not]
  simp [countTemp, List.filter_cons, errorMessage, system_temp_ne cid]

/-- Witness for C4 at HTTP status 500 with a placeholder present. -/
theorem terminal_error_single_apology_witness :
    terminalApply (TerminalEvent.loaded 500) {} [mkTempMessage ("temp-7") []]
        (tempIdOf ("7")) ("7") =
      ([mkTempMessage ("temp-7") []].filter
        (fun m => !(m.id == tempIdOf ("7")))) ++ [errorMessage ("7")] ∧
    countTemp (tempIdOf ("7")) (terminalApply (TerminalEvent.loaded 500) {}
      [mkTempMessage ("temp-7") []] (tempIdOf ("7")) ("7")) = 0 ∧
    (errorMessage ("7")).content = Json.str apologyText ∧
    (errorMessage ("7")).isError = true :=
  terminal_error_single_apology (TerminalEvent.loaded 500) {}
    [mkTempMessage ("temp-7") []] ("7") rfl

theorem finalize_eq_tail (st : StreamState) (hc : capturedTruthy st = false) :
    finalize st = finalizeTail st := by
  cases hfr : st.finalResponse with
  | none => simp [finalize, hfr]
  | some fr =>
    have hj : jsTruthy fr = false := by
      unfold capturedTruthy at hc
      rw [hfr] at hc
      simpa [optTruthy] using hc
    simp [finalize, hfr, hj]

/-- C1 (amended): for every stream state at a 2xx completion, the result is
resolved in priority order, where a captured `response` envelope wins only
when its `final_answer` is truthy: (1) a captured truthy `final_answer`;
(2) else the last non-blank line when it parses as JSON; (3) else a content
object joining the status messages, with the literal `"Request completed"`
when that join is empty; (4) else, with no non-blank line at all, a content
object with a distinct literal fallback phrase. -/
theorem finalization_priority_order (st : StreamState) :
    (∀ fr, st.finalResponse = some fr → jsTruthy fr = true →
      finalize st = fr) ∧
    (capturedTruthy st = false → ∀ l p,
      (emitLinesL st.receivedData).getLast? = some l → jsonParse l = some p →
      finalize st = p) ∧
    (capturedTruthy st = false → ∀ l,
      (emitLinesL st.receivedData).getLast? = some l → jsonParse l = none →
      finalize st = Json.obj [(("content" : String),
        Json.str (jsOrStr (joinNl st.apiStatusUpdates)
          ("Request completed")))]) ∧
    (capturedTruthy st = false →
      (emitLinesL st.receivedData).getLast? = none →
      finalize st = Json.obj [(("content" : String),
        Json.str ("Received response but couldn\x27t parse final result"))]) ∧
    (∀ status, isSuccessStatus status = true →
      terminalOutcome (TerminalEvent.loaded status) st =
        some (finalize st)) := by
  refine ⟨?_, ?_, ?_, ?_, ?_⟩
  · intro fr hfr ht
    simp [finalize, hfr, ht]
  · intro hc l p hl hp
    rw [finalize_eq_tail st hc]
    simp [finalizeTail, hl, hp]
  · intro hc l hl hp
    rw [finalize_eq_tail st hc]
    simp [finalizeTail, hl, hp]
  · intro hc hl
    rw [finalize_eq_tail st hc]
    simp [finalizeTail, hl]
  · intro status hs
    simp [terminalOutcome, hs]

/-- C1 counterexample: a stream delivering only
`{"type":"response","final_answer":""}` captures the envelope, yet the
falsy `final_answer` fails the `if (finalResponse)` test, so finalization
falls through to re-parsing the last line and returns the whole envelope
object instead of the captured `final_answer` — against the stated
priority order, formalized as `finalizeSpecOrder`. -/
theorem finalization_priority_order_cx :
    (runFrom ("temp-1") initSys
      [("\x7b\"type\":\"response\",\"final_answer\":\"\"\x7d").data]).stream.finalResponse =
      some (Json.str ("")) ∧
    finalize (runFrom ("temp-1") initSys
      [("\x7b\"type\":\"response\",\"final_answer\":\"\"\x7d").data]).stream ≠
    finalizeSpecOrder (runFrom ("temp-1") initSys
      [("\x7b\"type\":\"response\",\"final_answer\":\"\"\x7d").data]).stream := by
  constructor
  · rfl
  · intro h
    have h2 : (Json.obj [(("type" : String), Json.str ("response")),
        (("final_answer" : String), Json.str (""))] : Json) =
        Json.str ("") :=
      (show finalize (runFrom ("temp-1") initSys
          [("\x7b\"type\":\"response\",\"final_answer\":\"\"\x7d").data]).stream =
        Json.obj [(("type" : String), Json.str ("response")),
          (("final_answer" : String), Json.str (""))] from rfl).symm.trans
        (h.trans (show finalizeSpecOrder (runFrom ("temp-1") initSys
          [("\x7b\"type\":\"response\",\"final_answer\":\"\"\x7d").data]).stream =
          Json.str ("") from rfl))
    exact Json.noConfusion h2

/-- Witness for C1 (amended): priority (1) on a truthy capture, and
priority (3) on a stream with one status and an unparsable last line. -/
theorem finalization_priority_order_witness :
    finalize ⟨some (Json.str ("ans")), [], []⟩ = Json.str ("ans") ∧
    finalize ⟨none, [some (Json.str ("m1"))], ("garbage").data⟩ =
      Json.obj [(("content" : String),
        Json.str (jsOrStr (joinNl [some (Json.str ("m1"))])
          ("Request completed")))] := by
  constructor
  · exact (finalization_priority_order _).1 (Json.str ("ans")) rfl rfl
  · exact (finalization_priority_order
      ⟨none, [some (Json.str ("m1"))], ("garbage").data⟩).2.2.1 rfl
      (("garbage").data) rfl rfl

/-- C5 counterexample: for the stream `status(m1)`, `status(m2)` followed by
the unparsable last line `garbage` and a 2xx completion with no captured
`response` envelope, the finalized content is `"m1\nm2\ngarbage"`, not
`"m1\nm2"`: the classifier pushed the unparsable line itself onto the
status transcript before finalization joined it. -/
theorem status_join_final_content_cx :
    (finalize (runFrom ("temp-1") initSys
      [("\x7b\"type\":\"status\",\"message\":\"m1\"\x7d\n\x7b\"type\":\"status\",\"message\":\"m2\"\x7d\ngarbage").data]).stream).get
        ("content") = some (Json.str ("m1\nm2\ngarbage")) ∧
    (finalize (runFrom ("temp-1") initSys
      [("\x7b\"type\":\"status\",\"message\":\"m1\"\x7d\n\x7b\"type\":\"status\",\"message\":\"m2\"\x7d\ngarbage").data]).stream).get
        ("content") ≠ some (Json.str ("m1\nm2")) := by
  constructor
  · rfl
  · intro h
    have h2 : some (Json.str ("m1\nm2\ngarbage")) =
        some (Json.str ("m1\nm2")) :=
      (show (finalize (runFrom ("temp-1") initSys
        [("\x7b\"type\":\"status\",\"message\":\"m1\"\x7d\n\x7b\"type\":\"status\",\"message\":\"m2\"\x7d\ngarbage").data]).stream).get
          ("content") = some (Json.str ("m1\nm2\ngarbage")) from rfl).symm.trans h
    injection h2 with h3
    injection h3 with h4
    exact absurd h4 (by decide)

/-- C5 (amended): for that stream the finalized content is the joined
status-message transcript where the unparsable last line was itself
accumulated as a plain-text status message, hence `"m1\nm2\ngarbage"`; the
literal fallback phrase is still used only when the join is empty. -/
theorem status_join_final_content :
    finalize (runFrom ("temp-1") initSys
      [("\x7b\"type\":\"status\",\"message\":\"m1\"\x7d\n\x7b\"type\":\"status\",\"message\":\"m2\"\x7d\ngarbage").data]).stream =
      Json.obj [(("content" : String), Json.str ("m1\nm2\ngarbage"))] := by
  rfl

/-- C6 counterexample: the code has no status-detail retention switch.  At a
finalization with retention disabled the spec says the placeholder is
discarded, but the code converts it into a retained status-history record
regardless: `completeUpdate` differs from the retention-disabled behaviour
`completeUpdateSpecRetention false` on a list holding one placeholder. -/
theorem finalization_retention_cx :
    ((completeUpdate [mkTempMessage ("temp-9") []] ("temp-9") ("9")
      (Json.obj [])).any (fun m => m.isStatusHistory)) = true ∧
    ((completeUpdateSpecRetention false [mkTempMessage ("temp-9") []]
      ("temp-9") ("9") (Json.obj [])).any
        (fun m => m.isStatusHistory)) = false ∧
    completeUpdate [mkTempMessage ("temp-9") []] ("temp-9") ("9")
      (Json.obj []) ≠
    completeUpdateSpecRetention false [mkTempMessage ("temp-9") []]
      ("temp-9") ("9") (Json.obj []) := by
  refine ⟨rfl, rfl, ?_⟩
  intro h
  have h2 : (true : Bool) = false := by
    have h3 := congrArg
      (fun l : List Message => l.any (fun m => m.isStatusHistory)) h
    exact h3
  exact Bool.noConfusion h2

/-- C6 (amended): at finalization the placeholder is converted into a
retained status-history record unconditionally — no retention setting is
consulted; the behaviour coincides with the retention-enabled path of the
spec whenever no status-history record for the conversation exists yet —
and a new, separate final turn is appended in every case. -/
theorem finalization_retention_unconditional (prev : List Message)
    (tempId cid : String) (fd : Json)
    (h : prev.any (fun m =>
      m.id == ("status-" ++ cid) && m.isStatusHistory) = false) :
    completeUpdate prev tempId cid fd =
      completeUpdateSpecRetention true prev tempId cid fd ∧
    (completeUpdate prev tempId cid fd).getLast? =
      some (finalMessage cid fd) := by
  have he : completeUpdate prev tempId cid fd =
      prev.map (fun m => if m.id == tempId then historyConvert m cid
        else m) ++ [finalMessage cid fd] := by
    unfold completeUpdate
    simp [h]
  refine ⟨?_, ?_⟩
  · rw [he]
    unfold completeUpdateSpecRetention
    simp
  · rw [he]
    exact List.getLast?_concat _

/-- Witness for C6 (amended) on a concrete placeholder list. -/
theorem finalization_retention_unconditional_witness :
    completeUpdate [mkTempMessage ("temp-3") []] ("temp-3") ("3")
      (Json.obj []) =
      completeUpdateSpecRetention true [mkTempMessage ("temp-3") []]
        ("temp-3") ("3") (Json.obj []) ∧
    (completeUpdate [mkTempMessage ("temp-3") []] ("temp-3") ("3")
      (Json.obj [])).getLast? = some (finalMessage ("3") (Json.obj [])) :=
  finalization_retention_unconditional [mkTempMessage ("temp-3") []]
    ("temp-3") ("3") (Json.obj []) (by decide)

/-- C7 counterexample: the line `{"type":"response"}` parses as a JSON
object with type `response`, yet processing it appends the raw line to the
status transcript and creates/updates the placeholder turn: delivering the
`undefined` `final_answer` to the chunk handler throws at
`chunkData.isStatus` and the catch path demotes the line to a plain-text
status. -/
theorem response_envelope_capture_cx :
    jsonParse (("\x7b\"type\":\"response\"\x7d").data) =
      some (Json.obj [(("type" : String), Json.str ("response"))]) ∧
    (lineStep ("temp-1") initSys
      (("\x7b\"type\":\"response\"\x7d").data)).stream.apiStatusUpdates =
      [some (Json.str ("\x7b\"type\":\"response\"\x7d"))] ∧
    countTemp ("temp-1") (lineStep ("temp-1") initSys
      (("\x7b\"type\":\"response\"\x7d").data)).chat.messages = 1 := by
  refine ⟨rfl, rfl, rfl⟩

/-- C7 (amended): for every line parsing as a JSON object with type
`response`, the classifier stores its `final_answer` as the pending final
result; and provided that `final_answer` is present, non-null, and not
itself an object with a truthy `isStatus` field, the envelope is not
rendered as a status line: the wire transcript and the whole chat state
are left untouched. -/
theorem response_envelope_capture (tempId : String) (s : SysState)
    (line : List Char) (parsed fa : Json)
    (hp : jsonParse line = some parsed)
    (ht : parsed.get ("type") = some (Json.str ("response")))
    (hfa : parsed.get ("final_answer") = some fa)
    (hnn : fa ≠ Json.null)
    (hns : optTruthy (fa.get ("isStatus")) = false) :
    (lineStep tempId s line).stream.finalResponse = some fa ∧
    (lineStep tempId s line).stream.apiStatusUpdates =
      s.stream.apiStatusUpdates ∧
    (lineStep tempId s line).chat = s.chat := by
  have hobj : ∃ fs, parsed = Json.obj fs := by
    cases parsed with
    | obj fs => exact ⟨fs, rfl⟩
    | null => simp [Json.get] at ht
    | bool b => simp [Json.get] at ht
    | num n => simp [Json.get] at ht
    | str s => simp [Json.get] at ht
    | arr xs => simp [Json.get] at ht
  obtain ⟨fs, rfl⟩ := hobj
  have hstep : lineStep tempId s line =
      parsedStep tempId s line (Json.obj fs) := by
    unfold lineStep
    rw [hp]
  have h1 : jsEqStr ((Json.obj fs).get ("type")) ("status") = false := by
    rw [ht]
    rfl
  have h2 : jsEqStr ((Json.obj fs).get ("type")) ("response") = true := by
    rw [ht]
    rfl
  have hred : parsedStep tempId s line (Json.obj fs) =
      responseDeliver tempId
        (setFinal s ((Json.obj fs).get ("final_answer"))) line
        ((Json.obj fs).get ("final_answer")) := by
    unfold parsedStep
    simp [h1, h2]
  have hrd : responseDeliver tempId
      (setFinal s ((Json.obj fs).get ("final_answer"))) line
      ((Json.obj fs).get ("final_answer")) =
      setFinal s (some fa) := by
    rw [hfa]
    cases fa with
    | null => exact absurd rfl hnn
    | bool b =>
      show passOrKeep tempId (setFinal s (some (Json.bool b))) _ = _
      unfold passOrKeep
      rw [hns]
      simp
    | num n =>
      show passOrKeep tempId (setFinal s (some (Json.num n))) _ = _
      unfold passOrKeep
      rw [hns]
      simp
    | str t =>
      show passOrKeep tempId (setFinal s (some (Json.str t))) _ = _
      unfold passOrKeep
      rw [hns]
      simp
    | arr xs =>
      show passOrKeep tempId (setFinal s (some (Json.arr xs))) _ = _
      unfold passOrKeep
      rw [hns]
      simp
    | obj gs =>
      show passOrKeep tempId (setFinal s (some (Json.obj gs))) _ = _
      unfold passOrKeep
      rw [hns]
      simp
  rw [hstep, hred, hrd]
  exact ⟨rfl, rfl, rfl⟩

/-- Witness for C7 (amended) on the line
`{"type":"response","final_answer":"ok"}`. -/
theorem response_envelope_capture_witness :
    (lineStep ("temp-1") initSys
      (("\x7b\"type\":\"response\",\"final_answer\":\"ok\"\x7d").data)).stream.finalResponse =
      some (Json.str ("ok")) ∧
    (lineStep ("temp-1") initSys
      (("\x7b\"type\":\"response\",\"final_answer\":\"ok\"\x7d").data)).stream.apiStatusUpdates =
      initSys.stream.apiStatusUpdates ∧
    (lineStep ("temp-1") initSys
      (("\x7b\"type\":\"response\",\"final_answer\":\"ok\"\x7d").data)).chat =
      initSys.chat :=
  response_envelope_capture ("temp-1") initSys
    (("\x7b\"type\":\"response\",\"final_answer\":\"ok\"\x7d").data)
    (Json.obj [(("type" : String), Json.str ("response")),
      (("final_answer" : String), Json.str ("ok"))])
    (Json.str ("ok")) rfl rfl rfl (fun h => Json.noConfusion h) rfl

/-- C8: a line that fails strict JSON parsing never escapes the per-line
boundary: it is handled by the plain-text fallback, which appends the raw
line to the status transcript, renders it as a plain-text status update on
the placeholder, and lets the stream continue with the remaining lines. -/
theorem malformed_line_tolerated (tempId : String) (s : SysState)
    (line : List Char) (rest : List (List Char))
    (h : jsonParse line = none) :
    lineStep tempId s line = rawFallback tempId s line ∧
    (lineStep tempId s line).stream.apiStatusUpdates =
      s.stream.apiStatusUpdates ++ [some (Json.str (String.mk line))] ∧
    (lineStep tempId s line).chat =
      chatStatusUpdate tempId s.chat (some Json.null)
        (some (Json.str (String.mk line))) ∧
    (line :: rest).foldl (lineStep tempId) s =
      rest.foldl (lineStep tempId) (rawFallback tempId s line) := by
  have hstep : lineStep tempId s line = rawFallback tempId s line := by
    unfold lineStep
    rw [h]
  refine ⟨hstep, ?_, ?_, ?_⟩
  · rw [hstep]
    rfl
  · rw [hstep]
    rfl
  · rw [List.foldl_cons, hstep]

/-- Witness for C8 on the unparsable line `oops`. -/
theorem malformed_line_tolerated_witness :
    lineStep ("temp-1") initSys (("oops").data) =
      rawFallback ("temp-1") initSys (("oops").data) ∧
    (lineStep ("temp-1") initSys (("oops").data)).stream.apiStatusUpdates =
      initSys.stream.apiStatusUpdates ++ [some (Json.str ("oops"))] ∧
    (lineStep ("temp-1") initSys (("oops").data)).chat =
      chatStatusUpdate ("temp-1") initSys.chat (some Json.null)
        (some (Json.str ("oops"))) ∧
    ([("oops").data, ("x").data]).foldl (lineStep ("temp-1")) initSys =
      [("x").data].foldl (lineStep ("temp-1"))
        (rawFallback ("temp-1") initSys (("oops").data)) :=
  malformed_line_tolerated ("temp-1") initSys (("oops").data)
    [("x").data] rfl

/-- C9 counterexample: with a request outstanding (`isTyping = true`) and a
non-blank draft, the send button is enabled and the input field is enabled,
so submission is not disabled while a request is in flight. -/
theorem submission_disabled_cx :
    sendDisabled ("hi") true = false ∧
    inputFieldDisabled true = false ∧
    handleSendSubmits ("hi") = true := by
  refine ⟨rfl, rfl, rfl⟩

/-- C9 (amended): the submission controls do not depend on whether a
request is outstanding: the send button is disabled exactly when the draft
trims to the empty string, the input field is never disabled, and
`handleSend` fires exactly on a non-blank draft — so nothing prevents a new
submission while a request is in flight. -/
theorem submission_independent_of_inflight (message : String)
    (isTyping : Bool) :
    sendDisabled message isTyping = sendDisabled message false ∧
    sendDisabled message isTyping = jsBlank message.data ∧
    inputFieldDisabled isTyping = false ∧
    handleSendSubmits message = !(jsBlank message.data) := by
  refine ⟨rfl, rfl, rfl, rfl⟩

/-- C10: whenever the resolved final result lacks a truthy `content` field,
the appended final turn carries exactly the literal default text. -/
theorem final_turn_default_content (prev : List Message)
    (tempId cid : String) (fd : Json)
    (h : optTruthy (fd.get ("content")) = false) :
    (completeUpdate prev tempId cid fd).getLast? =
      some (finalMessage cid fd) ∧
    (finalMessage cid fd).content =
      Json.str ("I\x27ve processed your request.") := by
  constructor
  · unfold completeUpdate
    split_ifs
    · exact List.getLast?_concat _
    · exact List.getLast?_concat _
  · unfold finalMessage
    cases hc : fd.get ("content") with
    | none => rfl
    | some v =>
      have hv : jsTruthy v = false := by
        unfold optTruthy at h
        rw [hc] at h
        exact h
      simp [jsOr, hv]

/-- Witness for C10 with a status envelope as the resolved result. -/
theorem final_turn_default_content_witness :
    (completeUpdate [] ("temp-1") ("1")
      (Json.obj [(("type" : String), Json.str ("status"))])).getLast? =
      some (finalMessage ("1")
        (Json.obj [(("type" : String), Json.str ("status"))])) ∧
    (finalMessage ("1")
      (Json.obj [(("type" : String), Json.str ("status"))])).content =
      Json.str ("I\x27ve processed your request.") :=
  final_turn_default_content [] ("temp-1") ("1")
    (Json.obj [(("type" : String), Json.str ("status"))]) rfl
